import Mathlib

set_option autoImplicit false

namespace Trello

/-! # Verification of the Trello Desktop MCP resilient API client

Shallow embedding of the repository's core components:
the retry/backoff orchestrator, the error classifier and secure URL builder
documented in the wiki Security guide, the desktop server entry point
(`src/index.ts`), and the Zod validation layer (`src/utils/validation.ts`).

The repository snapshot does not contain `src/trello/client.ts` itself (only its
tests, wiki documentation and the tool-layer callers are present), so the retry
orchestrator and its error taxonomy are modelled from the specification
(spec §3, §4.2, §7); every such definition is marked `Modelled from the spec:`.
All other definitions are translated directly from source files present in the
snapshot. -/

/-- Modelled from the spec: `src/trello/client.ts` is absent from the snapshot.
The closed set of classified-error kinds (spec §3 `ClassifiedError` tagged
union): Authentication, Authorization, NotFound, RateLimited, Validation,
Network, Timeout, ServerError, Unknown. -/
inductive ErrorKind where
  | authentication
  | authorization
  | notFound
  | rateLimited
  | validation
  | network
  | timeout
  | serverError
  | unknown
  deriving DecidableEq, Repr

/-- Modelled from the spec: a `ClassifiedError` carries a human-readable
message, an optional upstream status code, and an optional retry-after hint
(spec §3). -/
structure ClassifiedError where
  kind : ErrorKind
  message : String
  status : Option Nat
  retryAfter : Option Nat
  deriving DecidableEq, Repr

/-- `RetryConfig` from wiki/Configuration.md: `maxRetries` bounds retry
attempts (not counting the first attempt), `baseDelay` and `maxDelay` are in
milliseconds. -/
structure RetryConfig where
  maxRetries : Nat
  baseDelay : Nat
  maxDelay : Nat
  deriving DecidableEq, Repr

/-- Defaults documented in wiki/Configuration.md: maxRetries 3, baseDelay
1000 ms, maxDelay 10000 ms. -/
def defaultRetryConfig : RetryConfig := ⟨3, 1000, 10000⟩

/-- Modelled from the spec: exponential backoff
`delay = min(baseDelay * 2^n, maxDelay)` for retry attempt `n` (spec §4.2). -/
def backoffDelay (cfg : RetryConfig) (n : Nat) : Nat :=
  min (cfg.baseDelay * 2 ^ n) cfg.maxDelay

/-- Modelled from the spec: what one network attempt of a logical call can
observe — a success response, an HTTP error response with its status and an
optional `retry-after` header (seconds), or a transport-level failure thrown
before any response was received (spec §4.2). -/
inductive AttemptOutcome (α : Type) where
  | success (value : α)
  | httpError (status : Nat) (retryAfter : Option Nat)
  | transport (isTimeout : Bool)
  deriving DecidableEq, Repr

/-- Modelled from the spec: classification of a non-2xx HTTP status
(spec §4.2, §7): Validation for 400/422, Authentication for 401, Authorization
for 403, NotFound for 404, RateLimited for 429, ServerError for 5xx. -/
def classifyStatus (status : Nat) (retryAfter : Option Nat) : ClassifiedError :=
  if status = 400 ∨ status = 422 then
    ⟨.validation, "Invalid request parameters", some status, none⟩
  else if status = 401 then
    ⟨.authentication, "Authentication failed", some status, none⟩
  else if status = 403 then
    ⟨.authorization, "Access denied", some status, none⟩
  else if status = 404 then
    ⟨.notFound, "Resource not found", some status, none⟩
  else if status = 429 then
    ⟨.rateLimited, "Rate limit exceeded, retry later", some status, retryAfter⟩
  else if 500 ≤ status then
    ⟨.serverError, "Server error", some status, none⟩
  else
    ⟨.unknown, "Unexpected HTTP status", some status, none⟩

/-- Modelled from the spec: a transport failure classifies as Timeout or
Network (spec §4.2: exhausting retries yields a Network or Timeout classified
error reflecting the last observed failure). -/
def classifyTransport (isTimeout : Bool) : ClassifiedError :=
  if isTimeout then ⟨.timeout, "Request timed out", none, none⟩
  else ⟨.network, "Network error", none, none⟩

/-- Modelled from the spec: the classified error produced for a failed attempt
outcome (never applied to a success). -/
def classifyOutcome {α : Type} : AttemptOutcome α → ClassifiedError
  | .success _ => ⟨.unknown, "", none, none⟩
  | .httpError s ra => classifyStatus s ra
  | .transport t => classifyTransport t

/-- Modelled from the spec: an HTTP status is retryable exactly when it is 429
or ≥ 500 (spec §4.2); 4xx other than 429 never retries. -/
def retryableStatus (s : Nat) : Bool :=
  s == 429 || decide (500 ≤ s)

/-- Modelled from the spec: an attempt outcome takes the retryable path exactly
when it is a 429 response, a 5xx response, or a transport failure. -/
def isRetryableOutcome {α : Type} : AttemptOutcome α → Bool
  | .success _ => false
  | .httpError s _ => retryableStatus s
  | .transport _ => true

/-- Modelled from the spec: the sleep (ms) before the retry that follows a 429
at attempt `n`: `retry-after` seconds converted to ms when the header is
present, otherwise the current backoff delay (spec §4.2). -/
def rateLimitSleep (cfg : RetryConfig) (n : Nat) (retryAfter : Option Nat) : Nat :=
  match retryAfter with
  | some sec => sec * 1000
  | none => backoffDelay cfg n

/-- Modelled from the spec: the observable trace of one logical call — how many
network attempts were performed, the backoff sleeps (ms, in order) between
them, and the final result (spec §4.2 terminal states Succeeded /
FailedPermanently). -/
structure CallTrace (α : Type) where
  attempts : Nat
  sleeps : List Nat
  result : Except ClassifiedError α
  deriving Repr

/-- Modelled from the spec: the retry loop from state `Attempting(n)` with
`remaining` retries left in the budget (spec §4.2 state machine):
on success return immediately; on a retryable failure (429 / 5xx / transport)
sleep and move to `Attempting(n+1)` while budget remains, else fail with the
classified error of the last failure; on any other HTTP error fail immediately
with its classified error. -/
def runFrom {α : Type} (cfg : RetryConfig) (outcomes : Nat → AttemptOutcome α)
    (n remaining : Nat) : CallTrace α :=
  match outcomes n with
  | .success v => ⟨1, [], .ok v⟩
  | .httpError s ra =>
    if retryableStatus s then
      match remaining with
      | 0 => ⟨1, [], .error (classifyStatus s ra)⟩
      | r + 1 =>
        let d := if s == 429 then rateLimitSleep cfg n ra else backoffDelay cfg n
        let rest := runFrom cfg outcomes (n + 1) r
        ⟨rest.attempts + 1, d :: rest.sleeps, rest.result⟩
    else
      ⟨1, [], .error (classifyStatus s ra)⟩
  | .transport t =>
    match remaining with
    | 0 => ⟨1, [], .error (classifyTransport t)⟩
    | r + 1 =>
      let rest := runFrom cfg outcomes (n + 1) r
      ⟨rest.attempts + 1, backoffDelay cfg n :: rest.sleeps, rest.result⟩

/-- Modelled from the spec: one logical call starts in `Attempting(0)` with the
full retry budget `maxRetries` (spec §4.2). `outcomes k` is what the k-th
network attempt would observe. -/
def runCall {α : Type} (cfg : RetryConfig) (outcomes : Nat → AttemptOutcome α) :
    CallTrace α :=
  runFrom cfg outcomes 0 cfg.maxRetries

/-! ## Error classifier — `SecureErrorHandler` (wiki Security guide, present in
the snapshot as the Error Handling Security section of the Security document) -/

/-- JavaScript `String.prototype.includes`: `strIncludes s sub = true` iff
`sub` occurs as a contiguous substring of `s`. -/
def strIncludes (s sub : String) : Bool :=
  (List.range (s.data.length + 1)).any (fun i => sub.data.isPrefixOf (s.data.drop i))

/-- The raw failures reaching `SecureErrorHandler.formatError`: an HTTP
`Response` object (carrying its status), a thrown `TypeError` (carrying its
message), or any other thrown value. -/
inductive RawFailure where
  | response (status : Nat)
  | typeError (message : String)
  | other
  deriving DecidableEq, Repr

/-- The `TrelloError` shape produced by `SecureErrorHandler` (interface
`TrelloError` in src/types/trello.ts): message, error tag, code, optional
status. -/
structure TrelloError where
  message : String
  errorTag : String
  code : String
  status : Option Nat
  deriving DecidableEq, Repr

/-- `SecureErrorHandler.handleHTTPError`: switch on `response.status`. -/
def handleHTTPError (status : Nat) : TrelloError :=
  if status = 401 then
    ⟨"Authentication failed. Please check your API credentials in Claude Desktop settings.",
      "AUTHENTICATION_ERROR", "INVALID_CREDENTIALS", some 401⟩
  else if status = 403 then
    ⟨"Access denied. Your token may need additional permissions.",
      "AUTHORIZATION_ERROR", "INSUFFICIENT_PERMISSIONS", some 403⟩
  else if status = 404 then
    ⟨"Resource not found. It may have been deleted or you may not have access.",
      "NOT_FOUND", "NOT_FOUND", some 404⟩
  else
    ⟨"API request failed. Please try again.",
      "HTTP_" ++ toString status, "API_ERROR", some status⟩

/-- The generic `TrelloError` returned for unknown failures (avoids
information disclosure). -/
def unknownTrelloError : TrelloError :=
  ⟨"An unexpected error occurred. Please try again.",
    "UNKNOWN_ERROR", "UNKNOWN_ERROR", none⟩

/-- The `TrelloError` for fetch-related `TypeError`s. -/
def networkTrelloError : TrelloError :=
  ⟨"Network connectivity issue. Please check your internet connection.",
    "NETWORK_ERROR", "NETWORK_ERROR", none⟩

/-- `SecureErrorHandler.formatError`: `Response` values go through
`handleHTTPError`, a `TypeError` whose message includes "fetch" becomes a
network error, and everything else becomes the generic unknown error. -/
def formatError (e : RawFailure) : TrelloError :=
  match e with
  | .response status => handleHTTPError status
  | .typeError msg =>
    if strIncludes msg "fetch" then networkTrelloError else unknownTrelloError
  | .other => unknownTrelloError

/-- Whether a raw failure matches one of `formatError`'s specific branches
(HTTP response, or fetch-related `TypeError`); everything else falls through
to the unknown-error fallback. -/
def matchesSpecificBranch : RawFailure → Bool
  | .response _ => true
  | .typeError msg => strIncludes msg "fetch"
  | .other => false

/-- The closed set of messages `formatError` can produce. -/
def formatErrorMessages : List String :=
  ["Authentication failed. Please check your API credentials in Claude Desktop settings.",
   "Access denied. Your token may need additional permissions.",
   "Resource not found. It may have been deleted or you may not have access.",
   "API request failed. Please try again.",
   "Network connectivity issue. Please check your internet connection.",
   "An unexpected error occurred. Please try again."]

/-- Lowercase hex digit (`[a-f0-9]`), the character class of the credential
regexes in `validateCredentials` (wiki Security guide). -/
def isLowerHexDigit (c : Char) : Bool :=
  (48 ≤ c.toNat && c.toNat ≤ 57) || (97 ≤ c.toNat && c.toNat ≤ 102)

/-- `/^[a-f0-9]{32}$/` — the Trello API-key format tested by
`validateCredentials` in the wiki Security guide. -/
def isValidApiKeyFormat (s : String) : Bool :=
  s.data.length == 32 && s.data.all isLowerHexDigit

/-- `/^[a-f0-9]{64,}$/` — the Trello token format tested by
`validateCredentials` in the wiki Security guide. -/
def isValidTokenFormat (s : String) : Bool :=
  decide (64 ≤ s.data.length) && s.data.all isLowerHexDigit

/-- Whether the 32-character window of `l` starting at `i` exists and consists
entirely of lowercase hex digits. -/
def windowAllHex (l : List Char) (i : Nat) : Bool :=
  ((l.drop i).take 32).length == 32 && ((l.drop i).take 32).all isLowerHexDigit

/-- Whether `l` contains a run of 32 consecutive lowercase hex digits —
a necessary condition for any valid-format credential to occur inside it. -/
def hasHexRun32 (l : List Char) : Bool :=
  (List.range (l.length + 1)).any (windowAllHex l)

/-! ## `buildSecureURL` (wiki Security guide, Request Security section) -/

/-- First character class of `/^[a-zA-Z_][a-zA-Z0-9_]*$/`. -/
def isIdentStartChar (c : Char) : Bool :=
  (65 ≤ c.toNat && c.toNat ≤ 90) || (97 ≤ c.toNat && c.toNat ≤ 122) || c.toNat == 95

/-- Subsequent character class of `/^[a-zA-Z_][a-zA-Z0-9_]*$/`. -/
def isIdentChar (c : Char) : Bool :=
  isIdentStartChar c || (48 ≤ c.toNat && c.toNat ≤ 57)

/-- The parameter-name regex `/^[a-zA-Z_][a-zA-Z0-9_]*$/` used by
`buildSecureURL`. -/
def isValidParamName (k : String) : Bool :=
  match k.data with
  | [] => false
  | c :: rest => isIdentStartChar c && rest.all isIdentChar

/-- The characters `encodeURIComponent` leaves unescaped:
`A-Z a-z 0-9 - _ . ! ~ * ' ( )`. -/
def isUriUnescaped (c : Char) : Bool :=
  let n := c.toNat
  (65 ≤ n && n ≤ 90) || (97 ≤ n && n ≤ 122) || (48 ≤ n && n ≤ 57) ||
  n == 45 || n == 95 || n == 46 || n == 33 || n == 126 ||
  n == 42 || n == 39 || n == 40 || n == 41

/-- UTF-8 encoding of one code point, as its byte values. -/
def utf8Bytes (c : Char) : List Nat :=
  let n := c.toNat
  if n < 128 then [n]
  else if n < 2048 then [192 + n / 64, 128 + n % 64]
  else if n < 65536 then [224 + n / 4096, 128 + (n / 64) % 64, 128 + n % 64]
  else [240 + n / 262144, 128 + (n / 4096) % 64, 128 + (n / 64) % 64, 128 + n % 64]

/-- Uppercase hex digit for a value below 16. -/
def hexDigitChar (n : Nat) : Char :=
  if n < 10 then Char.ofNat (48 + n) else Char.ofNat (55 + n)

/-- `%XX` percent-escape of one byte. -/
def percentByte (b : Nat) : List Char :=
  [Char.ofNat 37, hexDigitChar (b / 16), hexDigitChar (b % 16)]

/-- JavaScript `encodeURIComponent`: unescaped characters pass through, every
other character is replaced by the percent-escapes of its UTF-8 bytes. -/
def encodeURIComponent (s : String) : String :=
  ⟨s.data.flatMap (fun c =>
    if isUriUnescaped c then [c] else (utf8Bytes c).flatMap percentByte)⟩

/-- The WHATWG `URL` value built by `buildSecureURL`: the href part
(base `https://api.trello.com/1` plus endpoint) and the search parameters. -/
structure SecureURL where
  href : String
  searchParams : List (String × String)
  deriving DecidableEq, Repr

/-- `url.searchParams.set(k, v)`: replace the value of an existing parameter
named `k`, else append the pair. -/
def setSearchParam (q : List (String × String)) (k v : String) :
    List (String × String) :=
  if q.any (fun p => p.1 == k) then
    q.map (fun p => if p.1 == k then (k, v) else p)
  else q ++ [(k, v)]

/-- The `Object.entries(params).forEach` loop of `buildSecureURL`: each
parameter name is checked against the identifier regex (throwing on the first
violation), and each truthy string value is added as
`searchParams.set(key, encodeURIComponent(value))`. -/
def addSecureParams (q : List (String × String)) :
    List (String × String) → Except String (List (String × String))
  | [] => .ok q
  | (k, v) :: rest =>
    if isValidParamName k then
      addSecureParams (if v == "" then q else setSearchParam q k (encodeURIComponent v)) rest
    else
      .error ("Invalid parameter name: " ++ k)

/-- `endpoint.startsWith('/')`: the first character is a slash. -/
def jsStartsWithSlash (s : String) : Bool :=
  match s.data with
  | [] => false
  | c :: _ => c.toNat == 47

/-- `buildSecureURL(endpoint, params)` from the wiki Security guide: build the
URL from the fixed HTTPS base, reject endpoints not starting with `/`, then
validate and add every parameter; a thrown error means no request is made. -/
def buildSecureURL (endpoint : String) (params : List (String × String)) :
    Except String SecureURL :=
  if jsStartsWithSlash endpoint then
    (addSecureParams [] params).map
      (fun q => ⟨"https://api.trello.com/1" ++ endpoint, q⟩)
  else
    .error "Invalid endpoint format"

/-! ## Desktop server entry point (`src/index.ts`) -/

/-- JavaScript truthiness of `process.env.X`: false for an unset variable and
for the empty string. -/
def jsTruthyEnv : Option String → Bool
  | none => false
  | some s => !(s == "")

/-- What the desktop process does at startup. -/
inductive StartupResult where
  | started
  | exited (code : Nat)
  deriving DecidableEq, Repr

/-- The desktop credential check in `src/index.ts`:
`if (!TRELLO_API_KEY || !TRELLO_TOKEN) process.exit(1)` before the server is
created or connected. -/
def desktopStartup (apiKeyEnv tokenEnv : Option String) : StartupResult :=
  if !jsTruthyEnv apiKeyEnv || !jsTruthyEnv tokenEnv then .exited 1 else .started

/-- The argument object of a tool invocation: possibly caller-supplied
`apiKey`/`token` fields plus the remaining properties. -/
structure ToolArgs where
  apiKey : Option String
  token : Option String
  rest : List (String × String)
  deriving DecidableEq, Repr

/-- `argsWithCredentials = { ...args, apiKey: TRELLO_API_KEY, token:
TRELLO_TOKEN }` in the CallToolRequest handler of `src/index.ts`. -/
def injectCredentials (args : ToolArgs) (apiKey token : String) : ToolArgs :=
  { args with apiKey := some apiKey, token := some token }

/-- The CallToolRequest handler switch of `src/index.ts`: every known tool
name receives `argsWithCredentials`; an unknown name throws. The result is the
argument object delivered to the matched tool handler. -/
def dispatchToolCall (apiKey token : String) (name : String) (args : ToolArgs) :
    Except String ToolArgs :=
  let argsWithCredentials := injectCredentials args apiKey token
  match name with
  | "trello_search" => .ok argsWithCredentials
  | "trello_get_user_boards" => .ok argsWithCredentials
  | "get_board_details" => .ok argsWithCredentials
  | "get_card" => .ok argsWithCredentials
  | "create_card" => .ok argsWithCredentials
  | "update_card" => .ok argsWithCredentials
  | "move_card" => .ok argsWithCredentials
  | "trello_add_comment" => .ok argsWithCredentials
  | "trello_get_list_cards" => .ok argsWithCredentials
  | "trello_create_list" => .ok argsWithCredentials
  | "list_boards" => .ok argsWithCredentials
  | "get_lists" => .ok argsWithCredentials
  | "trello_get_member" => .ok argsWithCredentials
  | "trello_get_board_cards" => .ok argsWithCredentials
  | "trello_get_card_actions" => .ok argsWithCredentials
  | "trello_get_card_attachments" => .ok argsWithCredentials
  | "trello_get_card_checklists" => .ok argsWithCredentials
  | "trello_get_board_members" => .ok argsWithCredentials
  | "trello_get_board_labels" => .ok argsWithCredentials
  | other => .error ("Unknown tool: " ++ other)

/-! ## Validation layer (`src/utils/validation.ts`)

Inputs are modelled as records of optional raw values: `none` is a missing
property (Zod issue "Required" for required fields), `some v` a present value
of the property's runtime type. Zod's output transformations (defaults) are
not modelled — only acceptance and the issue list, which is what the claims
are about. -/

/-- Decimal digit. -/
def isDigitChar (c : Char) : Bool :=
  48 ≤ c.toNat && c.toNat ≤ 57

/-- Case-insensitive hex digit, the character class of
`/^[a-f0-9]{24}$/i`. -/
def isHexDigitCI (c : Char) : Bool :=
  isDigitChar c || (97 ≤ c.toNat && c.toNat ≤ 102) || (65 ≤ c.toNat && c.toNat ≤ 70)

/-- `trelloIdSchema`'s regex `/^[a-f0-9]{24}$/i`: exactly 24 characters, each
a hex digit of either case. -/
def isTrelloId (s : String) : Bool :=
  s.data.length == 24 && s.data.all isHexDigitCI

/-- The custom message of `trelloIdSchema`. -/
def trelloIdMsg : String := "Must be a valid 24-character Trello ID"

/-- One Zod issue: its path (numeric entries rendered in decimal, as
`path.join` would show them) and message. -/
structure ZodIssue where
  path : List String
  message : String
  deriving DecidableEq, Repr

/-- A thrown `ZodError`: the list of issues collected by `.parse`. -/
structure ZodError where
  issues : List ZodIssue
  deriving DecidableEq, Repr

/-- Issue for a missing required property. -/
def requiredIssue (field : String) : ZodIssue := ⟨[field], "Required"⟩

/-- `trelloIdSchema` at a required position. -/
def trelloIdIssues (field : String) : Option String → List ZodIssue
  | none => [requiredIssue field]
  | some s => if isTrelloId s then [] else [⟨[field], trelloIdMsg⟩]

/-- `trelloIdOptionalSchema` (`trelloIdSchema.optional()`). -/
def trelloIdOptIssues (field : String) : Option String → List ZodIssue
  | none => []
  | some s => if isTrelloId s then [] else [⟨[field], trelloIdMsg⟩]

/-- `z.string().min(1, minMsg)` at a required position (used for `apiKey`,
`token`). -/
def requiredMinIssues (field minMsg : String) : Option String → List ZodIssue
  | none => [requiredIssue field]
  | some s => if 1 ≤ s.data.length then [] else [⟨[field], minMsg⟩]

/-- `z.string().min(minLen, minMsg).max(maxLen, maxMsg)` at a required
position (used for `name` in `createCardSchema`). -/
def boundedStringIssues (field : String) (minLen : Nat) (minMsg : String)
    (maxLen : Nat) (maxMsg : String) : Option String → List ZodIssue
  | none => [requiredIssue field]
  | some s =>
    (if s.data.length < minLen then [⟨[field], minMsg⟩] else []) ++
    (if maxLen < s.data.length then [⟨[field], maxMsg⟩] else [])

/-- `z.string().min(minLen).max(maxLen).optional()` variants. -/
def boundedStringOptIssues (field : String) (minLen : Nat) (minMsg : String)
    (maxLen : Nat) (maxMsg : String) : Option String → List ZodIssue
  | none => []
  | some s =>
    (if s.data.length < minLen then [⟨[field], minMsg⟩] else []) ++
    (if maxLen < s.data.length then [⟨[field], maxMsg⟩] else [])

/-- `z.string().max(maxLen, maxMsg).optional()` (used for `desc`). -/
def maxStringOptIssues (field : String) (maxLen : Nat) (maxMsg : String) :
    Option String → List ZodIssue
  | none => []
  | some s => if maxLen < s.data.length then [⟨[field], maxMsg⟩] else []

/-- `z.enum([...]).optional().default(...)`; the invalid-value message
abbreviates Zod's generated text. -/
def enumOptIssues (field : String) (allowed : List String) :
    Option String → List ZodIssue
  | none => []
  | some s => if allowed.contains s then [] else [⟨[field], "Invalid enum value"⟩]

/-- Zod's default `z.string().datetime()` format:
`YYYY-MM-DDTHH:MM:SS(.fraction)?Z`. -/
def isIsoDatetime (s : String) : Bool :=
  match s.data with
  | y1 :: y2 :: y3 :: y4 :: sep1 :: mo1 :: mo2 :: sep2 :: d1 :: d2 ::
      tsep :: h1 :: h2 :: col1 :: mi1 :: mi2 :: col2 :: se1 :: se2 :: tail =>
    [y1, y2, y3, y4, mo1, mo2, d1, d2, h1, h2, mi1, mi2, se1, se2].all isDigitChar &&
    sep1.toNat == 45 && sep2.toNat == 45 && tsep.toNat == 84 &&
    col1.toNat == 58 && col2.toNat == 58 &&
    (tail == [Char.ofNat 90] ||
      (match tail with
       | dot :: fracZ =>
         dot.toNat == 46 && !(fracZ.dropLast == []) &&
         fracZ.dropLast.all isDigitChar && fracZ.getLast? == some (Char.ofNat 90)
       | [] => false))
  | _ => false

/-- `z.string().datetime().optional()` (used for `due` in
`createCardSchema`). -/
def datetimeOptIssues (field : String) : Option String → List ZodIssue
  | none => []
  | some s => if isIsoDatetime s then [] else [⟨[field], "Invalid datetime"⟩]

/-- `z.string().datetime().nullable().optional()` (used for `due` in
`updateCardSchema`): outer `none` is a missing property, `some none` is
`null`. -/
def datetimeNullableOptIssues (field : String) :
    Option (Option String) → List ZodIssue
  | none => []
  | some none => []
  | some (some s) => if isIsoDatetime s then [] else [⟨[field], "Invalid datetime"⟩]

/-- The raw value of a `pos` property:
`z.union([z.number().min(0), z.enum(['top', 'bottom'])])`. -/
inductive RawPos where
  | num (value : Int)
  | top
  | bottom
  deriving DecidableEq, Repr

/-- `pos` union schema at an optional position. -/
def posOptIssues (field : String) : Option RawPos → List ZodIssue
  | none => []
  | some (.num v) =>
    if v < 0 then [⟨[field], "Number must be greater than or equal to 0"⟩] else []
  | some .top => []
  | some .bottom => []

/-- `z.array(trelloIdSchema).optional()` (used for `idMembers`, `idLabels`):
one issue per offending element, with its index on the issue path. -/
def trelloIdArrayOptIssues (field : String) : Option (List String) → List ZodIssue
  | none => []
  | some l =>
    l.enum.flatMap (fun p =>
      if isTrelloId p.2 then [] else [⟨[field, toString p.1], trelloIdMsg⟩])

/-- The shared `apiKey`/`token` fields of every schema
(`credentialsSchema`). -/
def credentialIssues (apiKey token : Option String) : List ZodIssue :=
  requiredMinIssues "apiKey" "API key is required" apiKey ++
  requiredMinIssues "token" "Token is required" token

/-- Raw input of `getBoardSchema`. -/
structure RawGetBoard where
  apiKey : Option String
  token : Option String
  boardId : Option String
  includeDetails : Option Bool
  deriving DecidableEq, Repr

/-- Issues of `getBoardSchema`, in schema field order. -/
def getBoardIssues (r : RawGetBoard) : List ZodIssue :=
  credentialIssues r.apiKey r.token ++ trelloIdIssues "boardId" r.boardId

/-- Raw input of `getBoardListsSchema`. -/
structure RawGetBoardLists where
  apiKey : Option String
  token : Option String
  boardId : Option String
  filter : Option String
  deriving DecidableEq, Repr

/-- Issues of `getBoardListsSchema`, in schema field order. -/
def getBoardListsIssues (r : RawGetBoardLists) : List ZodIssue :=
  credentialIssues r.apiKey r.token ++
  trelloIdIssues "boardId" r.boardId ++
  enumOptIssues "filter" ["all", "open", "closed"] r.filter

/-- Raw input of `createCardSchema`. -/
structure RawCreateCard where
  apiKey : Option String
  token : Option String
  name : Option String
  desc : Option String
  idList : Option String
  pos : Option RawPos
  due : Option String
  idMembers : Option (List String)
  idLabels : Option (List String)
  deriving DecidableEq, Repr

/-- Issues of `createCardSchema`, in schema field order. -/
def createCardIssues (r : RawCreateCard) : List ZodIssue :=
  credentialIssues r.apiKey r.token ++
  boundedStringIssues "name" 1 "Card name is required" 16384 "Card name too long" r.name ++
  maxStringOptIssues "desc" 16384 "Description too long" r.desc ++
  trelloIdIssues "idList" r.idList ++
  posOptIssues "pos" r.pos ++
  datetimeOptIssues "due" r.due ++
  trelloIdArrayOptIssues "idMembers" r.idMembers ++
  trelloIdArrayOptIssues "idLabels" r.idLabels

/-- Raw input of `updateCardSchema`. -/
structure RawUpdateCard where
  apiKey : Option String
  token : Option String
  cardId : Option String
  name : Option String
  desc : Option String
  closed : Option Bool
  due : Option (Option String)
  dueComplete : Option Bool
  idList : Option String
  pos : Option RawPos
  idMembers : Option (List String)
  idLabels : Option (List String)
  deriving DecidableEq, Repr

/-- Issues of `updateCardSchema`, in schema field order; the boolean fields
`closed` and `dueComplete` are typed and contribute no issues. -/
def updateCardIssues (r : RawUpdateCard) : List ZodIssue :=
  credentialIssues r.apiKey r.token ++
  trelloIdIssues "cardId" r.cardId ++
  boundedStringOptIssues "name" 1 "String must contain at least 1 character(s)"
    16384 "String must contain at most 16384 character(s)" r.name ++
  maxStringOptIssues "desc" 16384 "String must contain at most 16384 character(s)" r.desc ++
  datetimeNullableOptIssues "due" r.due ++
  trelloIdOptIssues "idList" r.idList ++
  posOptIssues "pos" r.pos ++
  trelloIdArrayOptIssues "idMembers" r.idMembers ++
  trelloIdArrayOptIssues "idLabels" r.idLabels

/-- Raw input of `moveCardSchema`. -/
structure RawMoveCard where
  apiKey : Option String
  token : Option String
  cardId : Option String
  idList : Option String
  pos : Option RawPos
  deriving DecidableEq, Repr

/-- Issues of `moveCardSchema`, in schema field order. -/
def moveCardIssues (r : RawMoveCard) : List ZodIssue :=
  credentialIssues r.apiKey r.token ++
  trelloIdIssues "cardId" r.cardId ++
  trelloIdIssues "idList" r.idList ++
  posOptIssues "pos" r.pos

/-- Raw input of `getCardSchema`. -/
structure RawGetCard where
  apiKey : Option String
  token : Option String
  cardId : Option String
  includeDetails : Option Bool
  deriving DecidableEq, Repr

/-- Issues of `getCardSchema`, in schema field order. -/
def getCardIssues (r : RawGetCard) : List ZodIssue :=
  credentialIssues r.apiKey r.token ++ trelloIdIssues "cardId" r.cardId

/-- Raw input of `deleteCardSchema`. -/
structure RawDeleteCard where
  apiKey : Option String
  token : Option String
  cardId : Option String
  deriving DecidableEq, Repr

/-- Issues of `deleteCardSchema`, in schema field order. -/
def deleteCardIssues (r : RawDeleteCard) : List ZodIssue :=
  credentialIssues r.apiKey r.token ++ trelloIdIssues "cardId" r.cardId

/-- `validateGetBoard = getBoardSchema.parse`: throws a `ZodError` holding the
collected issues exactly when there is at least one. -/
def validateGetBoard (r : RawGetBoard) : Except ZodError RawGetBoard :=
  match getBoardIssues r with
  | [] => .ok r
  | i :: rest => .error ⟨i :: rest⟩

/-- `validateGetBoardLists = getBoardListsSchema.parse`. -/
def validateGetBoardLists (r : RawGetBoardLists) : Except ZodError RawGetBoardLists :=
  match getBoardListsIssues r with
  | [] => .ok r
  | i :: rest => .error ⟨i :: rest⟩

/-- `validateCreateCard = createCardSchema.parse`. -/
def validateCreateCard (r : RawCreateCard) : Except ZodError RawCreateCard :=
  match createCardIssues r with
  | [] => .ok r
  | i :: rest => .error ⟨i :: rest⟩

/-- `validateUpdateCard = updateCardSchema.parse`. -/
def validateUpdateCard (r : RawUpdateCard) : Except ZodError RawUpdateCard :=
  match updateCardIssues r with
  | [] => .ok r
  | i :: rest => .error ⟨i :: rest⟩

/-- `validateMoveCard = moveCardSchema.parse`. -/
def validateMoveCard (r : RawMoveCard) : Except ZodError RawMoveCard :=
  match moveCardIssues r with
  | [] => .ok r
  | i :: rest => .error ⟨i :: rest⟩

/-- `validateGetCard = getCardSchema.parse`. -/
def validateGetCard (r : RawGetCard) : Except ZodError RawGetCard :=
  match getCardIssues r with
  | [] => .ok r
  | i :: rest => .error ⟨i :: rest⟩

/-- `validateDeleteCard = deleteCardSchema.parse`. -/
def validateDeleteCard (r : RawDeleteCard) : Except ZodError RawDeleteCard :=
  match deleteCardIssues r with
  | [] => .ok r
  | i :: rest => .error ⟨i :: rest⟩

/-- One line of `formatValidationError`: `path.join('.') + ': '` when the path
is non-empty, followed by the issue message. -/
def issueText (i : ZodIssue) : String :=
  (if 0 < i.path.length then String.intercalate "." i.path ++ ": " else "") ++ i.message

/-- `formatValidationError` from `src/utils/validation.ts`. -/
def formatValidationError (e : ZodError) : String :=
  "Validation error: " ++ String.intercalate ", " (e.issues.map issueText)

/-- The output format asserted by the specification sentence: a string
beginning with `Validation error: ` listing each issue as `path: message`
joined by `, `. Stated from the claim's words, to be compared with
`formatValidationError`. -/
def formatValidationErrorSpec (e : ZodError) : String :=
  "Validation error: " ++
    String.intercalate ", "
      (e.issues.map (fun i =>
        (if 0 < i.path.length then String.intercalate "." i.path ++ ": " else "") ++
          i.message))

/-! ## Theorems -/

/-- C3: for every retry attempt number n, the computed exponential backoff
delay equals `min(baseDelay * 2^n, maxDelay)`; consequently the sequence of
computed delays is non-decreasing in n and no computed delay ever exceeds
`maxDelay`. -/
theorem C3_backoff_monotone_and_capped (cfg : RetryConfig) (n : Nat) :
    backoffDelay cfg n = min (cfg.baseDelay * 2 ^ n) cfg.maxDelay ∧
    backoffDelay cfg n ≤ backoffDelay cfg (n + 1) ∧
    backoffDelay cfg n ≤ cfg.maxDelay := by
  refine ⟨rfl, ?_, Nat.min_le_right _ _⟩
  exact min_le_min
    (Nat.mul_le_mul_left _ (Nat.pow_le_pow_right (by norm_num) (Nat.le_succ n)))
    le_rfl

/-- C1: a logical call whose first attempt receives an HTTP response with
status in {400, 401, 403, 404, 422} performs exactly one network attempt, no
backoff sleep, and returns the corresponding classified error: Validation for
400 and 422, Authentication for 401, Authorization for 403, NotFound for
404. -/
theorem C1_no_retry_on_client_errors {α : Type} (cfg : RetryConfig)
    (outcomes : Nat → AttemptOutcome α) (s : Nat) (ra : Option Nat)
    (h0 : outcomes 0 = .httpError s ra)
    (hs : s = 400 ∨ s = 401 ∨ s = 403 ∨ s = 404 ∨ s = 422) :
    (runCall cfg outcomes).attempts = 1 ∧
    (runCall cfg outcomes).sleeps = [] ∧
    (runCall cfg outcomes).result = .error (classifyStatus s ra) ∧
    ((s = 400 ∨ s = 422) → (classifyStatus s ra).kind = .validation) ∧
    (s = 401 → (classifyStatus s ra).kind = .authentication) ∧
    (s = 403 → (classifyStatus s ra).kind = .authorization) ∧
    (s = 404 → (classifyStatus s ra).kind = .notFound) := by
  have hnr : retryableStatus s = false := by
    rcases hs with h | h | h | h | h <;> subst h <;> decide
  unfold runCall runFrom
  rw [h0]
  simp only [hnr, Bool.false_eq_true, if_false]
  refine ⟨trivial, trivial, trivial, ?_, ?_, ?_, ?_⟩
  · intro h
    simp [classifyStatus, if_pos h]
  · intro h
    subst h
    simp [classifyStatus]
  · intro h
    subst h
    simp [classifyStatus]
  · intro h
    subst h
    simp [classifyStatus]

/-- If every attempt fails retryably, the loop spends its whole budget: from
`Attempting(n)` with `r` retries left it performs `r + 1` attempts, sleeps `r`
times, and fails with the classification of the last attempt's outcome. -/
theorem runFrom_all_retryable {α : Type} (cfg : RetryConfig)
    (outcomes : Nat → AttemptOutcome α)
    (h : ∀ j, isRetryableOutcome (outcomes j) = true) :
    ∀ (r n : Nat),
      (runFrom cfg outcomes n r).attempts = r + 1 ∧
      (runFrom cfg outcomes n r).sleeps.length = r ∧
      (runFrom cfg outcomes n r).result = .error (classifyOutcome (outcomes (n + r))) := by
  intro r
  induction r with
  | zero =>
    intro n
    have hn := h n
    unfold runFrom
    cases ho : outcomes n with
    | success v => rw [ho] at hn; simp [isRetryableOutcome] at hn
    | httpError s ra =>
      rw [ho] at hn
      simp only [isRetryableOutcome] at hn
      simp [hn, classifyOutcome, ho]
    | transport t => simp [classifyOutcome, ho]
  | succ r ih =>
    intro n
    have hn := h n
    have harg : n + 1 + r = n + (r + 1) := by omega
    unfold runFrom
    cases ho : outcomes n with
    | success v => rw [ho] at hn; simp [isRetryableOutcome] at hn
    | httpError s ra =>
      rw [ho] at hn
      simp only [isRetryableOutcome] at hn
      have := ih (n + 1)
      simp only [hn, if_true]
      refine ⟨by simp [this.1], by simp [this.2.1], ?_⟩
      simpa [harg] using this.2.2
    | transport t =>
      have := ih (n + 1)
      refine ⟨by simp [this.1], by simp [this.2.1], ?_⟩
      simpa [harg] using this.2.2

/-- If the first `k` attempts fail retryably and attempt `k` succeeds (with
`k` within the remaining budget), the loop returns the success value after
exactly `k + 1` attempts and `k` sleeps. -/
theorem runFrom_success_at {α : Type} (cfg : RetryConfig)
    (outcomes : Nat → AttemptOutcome α) (v : α) :
    ∀ (k n r : Nat),
      (∀ j, j < k → isRetryableOutcome (outcomes (n + j)) = true) →
      outcomes (n + k) = .success v → k ≤ r →
      (runFrom cfg outcomes n r).result = .ok v ∧
      (runFrom cfg outcomes n r).attempts = k + 1 ∧
      (runFrom cfg outcomes n r).sleeps.length = k := by
  intro k
  induction k with
  | zero =>
    intro n r hpre hs hk
    rw [Nat.add_zero] at hs
    unfold runFrom
    rw [hs]
    simp
  | succ k ih =>
    intro n r hpre hs hk
    have h0 : isRetryableOutcome (outcomes n) = true := by
      have := hpre 0 (Nat.succ_pos k)
      rwa [Nat.add_zero] at this
    have hpre2 : ∀ j, j < k → isRetryableOutcome (outcomes (n + 1 + j)) = true := by
      intro j hj
      have := hpre (j + 1) (by omega)
      rwa [show n + (j + 1) = n + 1 + j by omega] at this
    have hs2 : outcomes (n + 1 + k) = .success v := by
      rwa [show n + 1 + k = n + (k + 1) by omega]
    cases r with
    | zero => omega
    | succ r =>
      have ih2 := ih (n + 1) r hpre2 hs2 (by omega)
      unfold runFrom
      cases ho : outcomes n with
      | success w => rw [ho] at h0; simp [isRetryableOutcome] at h0
      | httpError s ra =>
        rw [ho] at h0
        simp only [isRetryableOutcome] at h0
        simp only [h0, if_true]
        exact ⟨by simp [ih2.1], by simp [ih2.2.1], by simp [ih2.2.2]⟩
      | transport t =>
        exact ⟨by simp [ih2.1], by simp [ih2.2.1], by simp [ih2.2.2]⟩

/-- If the first `k` attempts fail retryably and attempt `k` observes a
retryable HTTP error with budget remaining, the k-th recorded sleep is the
retry-after-aware sleep for a 429 and the backoff delay otherwise. -/
theorem runFrom_sleep_at {α : Type} (cfg : RetryConfig)
    (outcomes : Nat → AttemptOutcome α) :
    ∀ (k n r s : Nat) (ra : Option Nat),
      (∀ j, j < k → isRetryableOutcome (outcomes (n + j)) = true) →
      outcomes (n + k) = .httpError s ra → retryableStatus s = true → k < r →
      (runFrom cfg outcomes n r).sleeps[k]? =
        some (if s == 429 then rateLimitSleep cfg (n + k) ra else backoffDelay cfg (n + k)) := by
  intro k
  induction k with
  | zero =>
    intro n r s ra hpre hs hretry hk
    rw [Nat.add_zero] at hs
    cases r with
    | zero => omega
    | succ r =>
      unfold runFrom
      rw [hs]
      simp [hretry]
  | succ k ih =>
    intro n r s ra hpre hs hretry hk
    have h0 : isRetryableOutcome (outcomes n) = true := by
      have := hpre 0 (Nat.succ_pos k)
      rwa [Nat.add_zero] at this
    have hpre2 : ∀ j, j < k → isRetryableOutcome (outcomes (n + 1 + j)) = true := by
      intro j hj
      have := hpre (j + 1) (by omega)
      rwa [show n + (j + 1) = n + 1 + j by omega] at this
    have hs2 : outcomes (n + 1 + k) = .httpError s ra := by
      rwa [show n + 1 + k = n + (k + 1) by omega]
    cases r with
    | zero => omega
    | succ r =>
      have ih2 := ih (n + 1) r s ra hpre2 hs2 hretry (by omega)
      have harg : n + 1 + k = n + (k + 1) := by omega
      unfold runFrom
      cases ho : outcomes n with
      | success w => rw [ho] at h0; simp [isRetryableOutcome] at h0
      | httpError s0 ra0 =>
        rw [ho] at h0
        simp only [isRetryableOutcome] at h0
        simp only [h0, if_true]
        rw [harg] at ih2
        simpa using ih2
      | transport t =>
        rw [harg] at ih2
        simpa using ih2

/-- C2: when every attempt of a logical call fails with HTTP 429, HTTP ≥ 500,
or a transport exception, the orchestrator performs at most `maxRetries + 1`
network attempts (exactly that many, so the loop terminates) and returns the
classified error of the last observed failure. -/
theorem C2_bounded_retries {α : Type} (cfg : RetryConfig)
    (outcomes : Nat → AttemptOutcome α)
    (h : ∀ j, isRetryableOutcome (outcomes j) = true) :
    (runCall cfg outcomes).attempts ≤ cfg.maxRetries + 1 ∧
    (runCall cfg outcomes).attempts = cfg.maxRetries + 1 ∧
    (runCall cfg outcomes).result =
      .error (classifyOutcome (outcomes cfg.maxRetries)) := by
  have h1 := runFrom_all_retryable cfg outcomes h cfg.maxRetries 0
  refine ⟨le_of_eq h1.1, h1.1, ?_⟩
  simpa using h1.2.2

/-- C2 witness: with `maxRetries = 2` and every attempt timing out, the call
makes exactly 3 attempts and fails with the Timeout classification of the last
attempt. -/
theorem C2_witness :
    (runCall ⟨2, 1000, 10000⟩ (fun _ => AttemptOutcome.transport (α := Unit) true)).attempts ≤ 3 ∧
    (runCall ⟨2, 1000, 10000⟩ (fun _ => AttemptOutcome.transport (α := Unit) true)).attempts = 3 ∧
    (runCall ⟨2, 1000, 10000⟩ (fun _ => AttemptOutcome.transport (α := Unit) true)).result =
      .error (classifyOutcome (AttemptOutcome.transport (α := Unit) true)) := by
  exact C2_bounded_retries ⟨2, 1000, 10000⟩ (fun _ => AttemptOutcome.transport true)
    (fun _ => rfl)

/-- C5: if attempt k of a logical call receives a success response (the
earlier attempts having failed retryably, which is what makes attempt k
happen), the orchestrator returns the parsed result with exactly k + 1
attempts — no attempt k + 1 occurs and no further backoff sleep happens. -/
theorem C5_success_short_circuits {α : Type} (cfg : RetryConfig)
    (outcomes : Nat → AttemptOutcome α) (k : Nat) (v : α)
    (hpre : ∀ j, j < k → isRetryableOutcome (outcomes j) = true)
    (hk : k ≤ cfg.maxRetries)
    (hs : outcomes k = .success v) :
    (runCall cfg outcomes).result = .ok v ∧
    (runCall cfg outcomes).attempts = k + 1 ∧
    (runCall cfg outcomes).sleeps.length = k := by
  have := runFrom_success_at cfg outcomes v k 0 cfg.maxRetries
    (by intro j hj; simpa using hpre j hj) (by simpa using hs) hk
  exact this

/-- C5 witness: first attempt times out, second succeeds — the call returns
the value after exactly 2 attempts and 1 sleep. -/
theorem C5_witness :
    (runCall defaultRetryConfig
      (fun n => if n = 0 then AttemptOutcome.transport (α := Nat) true else .success 7)).result = .ok 7 ∧
    (runCall defaultRetryConfig
      (fun n => if n = 0 then AttemptOutcome.transport (α := Nat) true else .success 7)).attempts = 2 ∧
    (runCall defaultRetryConfig
      (fun n => if n = 0 then AttemptOutcome.transport (α := Nat) true else .success 7)).sleeps.length = 1 := by
  exact C5_success_short_circuits defaultRetryConfig _ 1 7
    (by
      intro j hj
      have hj0 : j = 0 := by omega
      simp [hj0, isRetryableOutcome])
    (by decide)
    rfl

/-- C4: when attempt k of a logical call receives a 429 carrying a
`retry-after` of `sec` seconds and the retry budget is not exhausted, the
orchestrator sleeps at least `sec` seconds (`sec * 1000` ms) before the next
attempt regardless of the computed exponential backoff; when the header is
absent on the 429, it sleeps the current computed backoff delay instead. -/
theorem C4_rate_limit_honors_retry_after {α : Type} (cfg : RetryConfig)
    (outcomes : Nat → AttemptOutcome α) (k : Nat)
    (hpre : ∀ j, j < k → isRetryableOutcome (outcomes j) = true)
    (hk : k < cfg.maxRetries) :
    (∀ sec, outcomes k = .httpError 429 (some sec) →
      ∃ d, (runCall cfg outcomes).sleeps[k]? = some d ∧ sec * 1000 ≤ d) ∧
    (outcomes k = .httpError 429 none →
      (runCall cfg outcomes).sleeps[k]? = some (backoffDelay cfg k)) := by
  constructor
  · intro sec hout
    have := runFrom_sleep_at cfg outcomes k 0 cfg.maxRetries 429 (some sec)
      (by intro j hj; simpa using hpre j hj) (by simpa using hout) (by decide) hk
    refine ⟨sec * 1000, ?_, le_rfl⟩
    simpa [rateLimitSleep] using this
  · intro hout
    have := runFrom_sleep_at cfg outcomes k 0 cfg.maxRetries 429 none
      (by intro j hj; simpa using hpre j hj) (by simpa using hout) (by decide) hk
    simpa [rateLimitSleep] using this

/-- C4 witness: a first-attempt 429 with `retry-after: 2` makes the call sleep
at least 2000 ms before attempt 1. -/
theorem C4_witness :
    ∃ d, (runCall defaultRetryConfig
      (fun n => if n = 0 then AttemptOutcome.httpError (α := Unit) 429 (some 2)
                else .success ())).sleeps[0]? = some d ∧ 2 * 1000 ≤ d := by
  exact (C4_rate_limit_honors_retry_after defaultRetryConfig _ 0
    (by intro j hj; omega) (by decide)).1 2 rfl
/-- Every message `formatError` can produce is one of the six fixed strings —
in particular it is a constant, independent of the request and of the
credentials attached to it. -/
theorem formatError_message_mem (e : RawFailure) :
    (formatError e).message ∈ formatErrorMessages := by
  cases e with
  | response status =>
    simp only [formatError]
    unfold handleHTTPError
    split_ifs <;> simp [formatErrorMessages]
  | typeError msg =>
    simp only [formatError]
    split_ifs <;> simp [networkTrelloError, unknownTrelloError, formatErrorMessages]
  | other => simp [formatError, unknownTrelloError, formatErrorMessages]

/-- If a string of 32 or more lowercase hex digits occurs inside `m`, then `m`
contains a run of 32 consecutive lowercase hex digits. -/
theorem hasHexRun32_of_strIncludes (m key : String)
    (h : strIncludes m key = true)
    (hall : key.data.all isLowerHexDigit = true)
    (hlen : 32 ≤ key.data.length) : hasHexRun32 m.data = true := by
  unfold strIncludes at h
  rw [List.any_eq_true] at h
  obtain ⟨i, hi, hp⟩ := h
  rw [List.mem_range] at hi
  rw [List.isPrefixOf_iff_prefix] at hp
  have tpref : key.data.take 32 <+: m.data.drop i :=
    (List.take_prefix 32 key.data).trans hp
  have tlen : (key.data.take 32).length = 32 := by
    rw [List.length_take]
    omega
  have teq : key.data.take 32 = (m.data.drop i).take 32 := by
    have h2 := List.prefix_iff_eq_take.mp tpref
    rwa [tlen] at h2
  unfold hasHexRun32
  rw [List.any_eq_true]
  refine ⟨i, List.mem_range.mpr hi, ?_⟩
  unfold windowAllHex
  rw [← teq, tlen]
  simp only [beq_self_eq_true, Bool.true_and]
  rw [List.all_eq_true] at hall ⊢
  intro x hx
  exact hall x (List.take_subset 32 key.data hx)

/-- None of the six classifier messages contains a run of 32 consecutive
lowercase hex digits. -/
theorem formatErrorMessages_no_hexRun :
    ∀ m ∈ formatErrorMessages, hasHexRun32 m.data = false := by
  intro m hm
  fin_cases hm <;> decide

/-- C6: the error classifier `SecureErrorHandler.formatError` is a total pure
function — every raw failure maps to exactly one error value, an input
matching none of the specific branches falls back to the unknown kind, and
classifying the same raw failure twice yields the same result. -/
theorem C6_classifier_total_pure :
    ∀ e : RawFailure,
      (∃! t : TrelloError, formatError e = t) ∧
      (matchesSpecificBranch e = false →
        formatError e = unknownTrelloError ∧ (formatError e).code = "UNKNOWN_ERROR") ∧
      (∀ e2 : RawFailure, e2 = e → formatError e2 = formatError e) := by
  intro e
  refine ⟨⟨formatError e, rfl, fun y hy => hy.symm⟩, ?_, fun e2 h => by rw [h]⟩
  intro h
  cases e with
  | response status => simp [matchesSpecificBranch] at h
  | typeError msg =>
    simp only [matchesSpecificBranch] at h
    simp only [formatError, h, Bool.false_eq_true, if_false]
    exact ⟨trivial, rfl⟩
  | other => exact ⟨rfl, rfl⟩

/-- C6 witness: two concrete inputs matching no specific branch (a non-`fetch`
`TypeError` and an arbitrary thrown value) both classify to the unknown
fallback. -/
theorem C6_witness :
    formatError RawFailure.other = unknownTrelloError ∧
    formatError (RawFailure.typeError "boom") = unknownTrelloError := by
  exact ⟨((C6_classifier_total_pure RawFailure.other).2.1 rfl).1,
    ((C6_classifier_total_pure (RawFailure.typeError "boom")).2.1 (by decide)).1⟩

/-- C7 counterexample: the claim quantifies over every credential pair
accepted at construction (`credentialsSchema` requires only non-emptiness).
The pair ("try", "x") passes the schema, yet the classified error produced for
an unknown failure of a request made with it has the literal API key "try" as
a substring of its message — the fixed message happens to contain it. -/
theorem C7_counterexample :
    credentialIssues (some "try") (some "x") = [] ∧
    strIncludes (formatError RawFailure.other).message "try" = true := by
  constructor
  · decide
  · decide

/-- C7 (amended): for every credential pair in the documented Trello format —
API key matching `/^[a-f0-9]{32}$/` and token matching `/^[a-f0-9]{64,}$/`,
per `validateCredentials` — and every failure of a request made with those
credentials, the classified error's message contains neither the literal API
key nor the literal token as a substring. -/
theorem C7_no_credential_leakage (apiKey token : String) (e : RawFailure)
    (hk : isValidApiKeyFormat apiKey = true)
    (ht : isValidTokenFormat token = true) :
    strIncludes (formatError e).message apiKey = false ∧
    strIncludes (formatError e).message token = false := by
  have hrun : hasHexRun32 (formatError e).message.data = false :=
    formatErrorMessages_no_hexRun _ (formatError_message_mem e)
  unfold isValidApiKeyFormat at hk
  unfold isValidTokenFormat at ht
  rw [Bool.and_eq_true] at hk ht
  have hklen : 32 ≤ apiKey.data.length := by
    have h32 : apiKey.data.length = 32 := by simpa using hk.1
    omega
  have htlen : 64 ≤ token.data.length := of_decide_eq_true ht.1
  constructor
  · by_contra hcon
    rw [Bool.not_eq_false] at hcon
    have := hasHexRun32_of_strIncludes _ _ hcon hk.2 hklen
    rw [this] at hrun
    exact Bool.noConfusion hrun
  · by_contra hcon
    rw [Bool.not_eq_false] at hcon
    have := hasHexRun32_of_strIncludes _ _ hcon ht.2 (by omega)
    rw [this] at hrun
    exact Bool.noConfusion hrun

/-- C7 witness: a concrete valid-format key (32 hex chars) and token (64 hex
chars) appear in no classifier message for a concrete failure. -/
theorem C7_witness :
    strIncludes (formatError RawFailure.other).message
      "aaaaaaaaaaaaaaaaaaaaaaaaaaaaaaaa" = false ∧
    strIncludes (formatError RawFailure.other).message
      "0123456789abcdef0123456789abcdef0123456789abcdef0123456789abcdef" = false := by
  exact C7_no_credential_leakage "aaaaaaaaaaaaaaaaaaaaaaaaaaaaaaaa"
    "0123456789abcdef0123456789abcdef0123456789abcdef0123456789abcdef"
    RawFailure.other (by decide) (by decide)

/-- `searchParams.set` only produces entries that were already present or the
entry being set. -/
theorem mem_setSearchParam (q : List (String × String)) (k v : String)
    (kv : String × String) (h : kv ∈ setSearchParam q k v) :
    kv ∈ q ∨ kv = (k, v) := by
  unfold setSearchParam at h
  split_ifs at h with hq
  · rw [List.mem_map] at h
    obtain ⟨p, hp, he⟩ := h
    by_cases hpk : p.1 == k
    · right
      rw [← he, if_pos hpk]
    · left
      rw [← he, if_neg hpk]
      exact hp
  · rw [List.mem_append] at h
    rcases h with h | h
    · exact Or.inl h
    · right
      simpa using h

/-- Every search parameter accumulated by the `forEach` loop either was in the
accumulator already or is a parameter name paired with the
`encodeURIComponent` of its original value. -/
theorem addSecureParams_mem (params : List (String × String)) :
    ∀ (q res : List (String × String)),
      addSecureParams q params = .ok res →
      ∀ kv ∈ res, kv ∈ q ∨ ∃ p ∈ params, kv = (p.1, encodeURIComponent p.2) := by
  induction params with
  | nil =>
    intro q res h kv hkv
    simp only [addSecureParams] at h
    cases h
    exact Or.inl hkv
  | cons p rest ih =>
    intro q res h kv hkv
    obtain ⟨k, v⟩ := p
    by_cases hname : isValidParamName k
    · simp only [addSecureParams, if_pos hname] at h
      by_cases hv : (v == "")
      · rw [if_pos hv] at h
        rcases ih _ res h kv hkv with hq | ⟨p2, hp2, he⟩
        · exact Or.inl hq
        · exact Or.inr ⟨p2, List.mem_cons_of_mem _ hp2, he⟩
      · rw [if_neg hv] at h
        rcases ih _ res h kv hkv with hq | ⟨p2, hp2, he⟩
        · rcases mem_setSearchParam q k (encodeURIComponent v) kv hq with hq2 | he2
          · exact Or.inl hq2
          · exact Or.inr ⟨(k, v), List.mem_cons_self _ _, he2⟩
        · exact Or.inr ⟨p2, List.mem_cons_of_mem _ hp2, he⟩
    · rw [addSecureParams, if_neg hname] at h
      cases h

/-- If some parameter name fails the identifier regex, the `forEach` loop
throws (no matter the accumulator). -/
theorem addSecureParams_error_of_invalid (params : List (String × String)) :
    ∀ q, (∃ p ∈ params, isValidParamName p.1 = false) →
      ∃ msg, addSecureParams q params = .error msg := by
  induction params with
  | nil =>
    intro q h
    obtain ⟨p, hp, _⟩ := h
    simp at hp
  | cons p rest ih =>
    intro q h
    obtain ⟨k, v⟩ := p
    by_cases hname : isValidParamName k
    · obtain ⟨p2, hp2, hinv⟩ := h
      rcases List.mem_cons.mp hp2 with he | hm
      · rw [he] at hinv
        rw [hname] at hinv
        cases hinv
      · obtain ⟨msg, hmsg⟩ := ih _ ⟨p2, hm, hinv⟩
        refine ⟨msg, ?_⟩
        simp only [addSecureParams, if_pos hname]
        exact hmsg
    · refine ⟨"Invalid parameter name: " ++ k, ?_⟩
      simp only [addSecureParams]
      rw [if_neg hname]

/-- C8: endpoint construction percent-encodes every query parameter value (on
success, every search parameter of the built URL is an original parameter name
paired with the `encodeURIComponent` of its original value), and any parameter
whose name is not a syntactically valid identifier makes `buildSecureURL`
throw — the request is rejected with no URL built, hence before any network
call. -/
theorem C8_secure_url_encoding_and_validation (endpoint : String)
    (params : List (String × String)) :
    (∀ u, buildSecureURL endpoint params = .ok u →
      ∀ kv ∈ u.searchParams, ∃ p ∈ params, kv = (p.1, encodeURIComponent p.2)) ∧
    ((∃ p ∈ params, isValidParamName p.1 = false) →
      ∃ msg, buildSecureURL endpoint params = .error msg) := by
  constructor
  · intro u hu kv hkv
    unfold buildSecureURL at hu
    by_cases hep : jsStartsWithSlash endpoint
    · rw [if_pos hep] at hu
      cases hq : addSecureParams [] params with
      | error msg =>
        rw [hq] at hu
        simp [Except.map] at hu
      | ok q =>
        rw [hq] at hu
        simp only [Except.map] at hu
        cases hu
        rcases addSecureParams_mem params [] q hq kv hkv with hnil | hgood
        · simp at hnil
        · exact hgood
    · rw [if_neg hep] at hu
      cases hu
  · intro h
    unfold buildSecureURL
    by_cases hep : jsStartsWithSlash endpoint
    · rw [if_pos hep]
      obtain ⟨msg, hmsg⟩ := addSecureParams_error_of_invalid params [] h
      refine ⟨msg, ?_⟩
      rw [hmsg]
      rfl
    · rw [if_neg hep]
      exact ⟨"Invalid endpoint format", rfl⟩

/-- C8 witness: a parameter named "bad name" is rejected, and the value
"10 x" of a valid parameter appears only percent-encoded. -/
theorem C8_witness :
    (∃ msg, buildSecureURL "/cards" [("bad name", "x")] = .error msg) ∧
    (∃ p ∈ [("limit", "10 x")], ("limit", "10%20x") = (p.1, encodeURIComponent p.2)) := by
  constructor
  · exact (C8_secure_url_encoding_and_validation "/cards" [("bad name", "x")]).2
      ⟨("bad name", "x"), by simp, by decide⟩
  · exact (C8_secure_url_encoding_and_validation "/cards" [("limit", "10 x")]).1
      ⟨"https://api.trello.com/1/cards", [("limit", "10%20x")]⟩ (by rfl)
      ("limit", "10%20x") (by simp)

/-- C9: the desktop server either starts or exits with code 1; it starts
exactly when both `TRELLO_API_KEY` and `TRELLO_TOKEN` are set and non-empty
(otherwise it exits with code 1 before serving any request); and every
dispatched tool invocation delivers to its handler an argument object whose
`apiKey` and `token` fields are the environment values, overriding any
caller-supplied values of the same names. -/
theorem C9_startup_and_credential_injection (apiKeyEnv tokenEnv : Option String)
    (apiKey token name : String) (args delivered : ToolArgs) :
    (desktopStartup apiKeyEnv tokenEnv = .started ∨
      desktopStartup apiKeyEnv tokenEnv = .exited 1) ∧
    (desktopStartup apiKeyEnv tokenEnv = .started ↔
      (∃ s, apiKeyEnv = some s ∧ s ≠ "") ∧ (∃ s, tokenEnv = some s ∧ s ≠ "")) ∧
    (dispatchToolCall apiKey token name args = .ok delivered →
      delivered.apiKey = some apiKey ∧ delivered.token = some token) := by
  refine ⟨?_, ?_, ?_⟩
  · unfold desktopStartup
    split_ifs <;> simp
  · cases apiKeyEnv with
    | none => simp [desktopStartup, jsTruthyEnv]
    | some a =>
      cases tokenEnv with
      | none => simp [desktopStartup, jsTruthyEnv]
      | some b =>
        by_cases ha : a = "" <;> by_cases hb : b = "" <;>
          simp [desktopStartup, jsTruthyEnv, ha, hb]
  · intro h
    simp only [dispatchToolCall] at h
    split at h <;>
      first
      | (injection h with h2
         subst h2
         exact ⟨rfl, rfl⟩)
      | injection h

/-- C9 witness: with both env credentials set, the server starts and the
handler of a concrete `create_card` call receives the env credentials even
though the caller supplied different `apiKey`/`token` values. -/
theorem C9_witness :
    desktopStartup (some "key123") (some "token456") = StartupResult.started ∧
    (ToolArgs.mk (some "key123") (some "token456") []).apiKey = some "key123" ∧
    (ToolArgs.mk (some "key123") (some "token456") []).token = some "token456" := by
  have h := C9_startup_and_credential_injection (some "key123") (some "token456")
    "key123" "token456" "create_card" ⟨some "attacker", some "evil", []⟩
    ⟨some "key123", some "token456", []⟩
  refine ⟨?_, ?_, ?_⟩
  · exact h.2.1.mpr ⟨⟨"key123", rfl, by decide⟩, ⟨"token456", rfl, by decide⟩⟩
  · exact (h.2.2 (by rfl)).1
  · exact (h.2.2 (by rfl)).2

/-- A required Trello-ID field that collected no issue holds a string matching
the 24-hex-character regex. -/
theorem trelloId_of_issues_nil {field : String} {v : Option String} {s : String}
    (h : trelloIdIssues field v = []) (hv : v = some s) : isTrelloId s = true := by
  subst hv
  by_cases hid : isTrelloId s
  · exact hid
  · simp [trelloIdIssues, hid] at h

/-- Same for an optional Trello-ID field that is present. -/
theorem trelloIdOpt_of_issues_nil {field : String} {v : Option String} {s : String}
    (h : trelloIdOptIssues field v = []) (hv : v = some s) : isTrelloId s = true := by
  subst hv
  by_cases hid : isTrelloId s
  · exact hid
  · simp [trelloIdOptIssues, hid] at h

/-- A present Trello-ID field failing the regex contributes an issue. -/
theorem trelloIdIssues_ne_nil {field s : String} (hid : isTrelloId s = false) :
    trelloIdIssues field (some s) ≠ [] := by
  simp [trelloIdIssues, hid]

/-- An ID-array field that collected no issue holds only regex-matching
elements. -/
theorem trelloIdArray_of_issues_nil {field : String} {v : Option (List String)}
    {l : List String} (h : trelloIdArrayOptIssues field v = []) (hv : v = some l) :
    ∀ s ∈ l, isTrelloId s = true := by
  subst hv
  simp only [trelloIdArrayOptIssues] at h
  rw [List.flatMap_eq_nil_iff] at h
  intro s hs
  obtain ⟨i, hget⟩ := List.mem_iff_getElem?.mp hs
  have hmem : (i, s) ∈ l.enum := by
    rw [List.mk_mem_enum_iff_getElem?]
    exact hget
  have h2 := h (i, s) hmem
  by_cases hid : isTrelloId s
  · exact hid
  · simp [hid] at h2

/-- An element of a present ID-array field failing the regex contributes an
issue with the element's index on its path. -/
theorem trelloIdArray_issues_ne_nil {field s : String} {l : List String}
    (hs : s ∈ l) (hid : isTrelloId s = false) :
    trelloIdArrayOptIssues field (some l) ≠ [] := by
  simp only [trelloIdArrayOptIssues]
  rw [Ne, List.flatMap_eq_nil_iff]
  intro h
  obtain ⟨i, hget⟩ := List.mem_iff_getElem?.mp hs
  have hmem : (i, s) ∈ l.enum := by
    rw [List.mk_mem_enum_iff_getElem?]
    exact hget
  have h2 := h (i, s) hmem
  rw [hid] at h2
  simp at h2

/-- `createCardSchema.parse` succeeds only with an empty issue list. -/
theorem createCard_issues_nil_of_ok {r x : RawCreateCard}
    (h : validateCreateCard r = .ok x) : createCardIssues r = [] := by
  unfold validateCreateCard at h
  cases hi : createCardIssues r with
  | nil => rfl
  | cons i rest =>
    rw [hi] at h
    simp at h

/-- `createCardSchema.parse` throws whenever any issue was collected. -/
theorem createCard_error_of_issues_ne {r : RawCreateCard}
    (h : createCardIssues r ≠ []) : ∃ err, validateCreateCard r = .error err := by
  unfold validateCreateCard
  cases hi : createCardIssues r with
  | nil => exact absurd hi h
  | cons i rest => exact ⟨⟨i :: rest⟩, rfl⟩

/-- `updateCardSchema.parse` succeeds only with an empty issue list. -/
theorem updateCard_issues_nil_of_ok {r x : RawUpdateCard}
    (h : validateUpdateCard r = .ok x) : updateCardIssues r = [] := by
  unfold validateUpdateCard at h
  cases hi : updateCardIssues r with
  | nil => rfl
  | cons i rest =>
    rw [hi] at h
    simp at h

/-- `updateCardSchema.parse` throws whenever any issue was collected. -/
theorem updateCard_error_of_issues_ne {r : RawUpdateCard}
    (h : updateCardIssues r ≠ []) : ∃ err, validateUpdateCard r = .error err := by
  unfold validateUpdateCard
  cases hi : updateCardIssues r with
  | nil => exact absurd hi h
  | cons i rest => exact ⟨⟨i :: rest⟩, rfl⟩

/-- `moveCardSchema.parse` succeeds only with an empty issue list. -/
theorem moveCard_issues_nil_of_ok {r x : RawMoveCard}
    (h : validateMoveCard r = .ok x) : moveCardIssues r = [] := by
  unfold validateMoveCard at h
  cases hi : moveCardIssues r with
  | nil => rfl
  | cons i rest =>
    rw [hi] at h
    simp at h

/-- `moveCardSchema.parse` throws whenever any issue was collected. -/
theorem moveCard_error_of_issues_ne {r : RawMoveCard}
    (h : moveCardIssues r ≠ []) : ∃ err, validateMoveCard r = .error err := by
  unfold validateMoveCard
  cases hi : moveCardIssues r with
  | nil => exact absurd hi h
  | cons i rest => exact ⟨⟨i :: rest⟩, rfl⟩

/-- `getCardSchema.parse` succeeds only with an empty issue list. -/
theorem getCard_issues_nil_of_ok {r x : RawGetCard}
    (h : validateGetCard r = .ok x) : getCardIssues r = [] := by
  unfold validateGetCard at h
  cases hi : getCardIssues r with
  | nil => rfl
  | cons i rest =>
    rw [hi] at h
    simp at h

/-- `getCardSchema.parse` throws whenever any issue was collected. -/
theorem getCard_error_of_issues_ne {r : RawGetCard}
    (h : getCardIssues r ≠ []) : ∃ err, validateGetCard r = .error err := by
  unfold validateGetCard
  cases hi : getCardIssues r with
  | nil => exact absurd hi h
  | cons i rest => exact ⟨⟨i :: rest⟩, rfl⟩

/-- `deleteCardSchema.parse` succeeds only with an empty issue list. -/
theorem deleteCard_issues_nil_of_ok {r x : RawDeleteCard}
    (h : validateDeleteCard r = .ok x) : deleteCardIssues r = [] := by
  unfold validateDeleteCard at h
  cases hi : deleteCardIssues r with
  | nil => rfl
  | cons i rest =>
    rw [hi] at h
    simp at h

/-- `deleteCardSchema.parse` throws whenever any issue was collected. -/
theorem deleteCard_error_of_issues_ne {r : RawDeleteCard}
    (h : deleteCardIssues r ≠ []) : ∃ err, validateDeleteCard r = .error err := by
  unfold validateDeleteCard
  cases hi : deleteCardIssues r with
  | nil => exact absurd hi h
  | cons i rest => exact ⟨⟨i :: rest⟩, rfl⟩

/-- `getBoardSchema.parse` succeeds only with an empty issue list. -/
theorem getBoard_issues_nil_of_ok {r x : RawGetBoard}
    (h : validateGetBoard r = .ok x) : getBoardIssues r = [] := by
  unfold validateGetBoard at h
  cases hi : getBoardIssues r with
  | nil => rfl
  | cons i rest =>
    rw [hi] at h
    simp at h

/-- `getBoardSchema.parse` throws whenever any issue was collected. -/
theorem getBoard_error_of_issues_ne {r : RawGetBoard}
    (h : getBoardIssues r ≠ []) : ∃ err, validateGetBoard r = .error err := by
  unfold validateGetBoard
  cases hi : getBoardIssues r with
  | nil => exact absurd hi h
  | cons i rest => exact ⟨⟨i :: rest⟩, rfl⟩

/-- `getBoardListsSchema.parse` succeeds only with an empty issue list. -/
theorem getBoardLists_issues_nil_of_ok {r x : RawGetBoardLists}
    (h : validateGetBoardLists r = .ok x) : getBoardListsIssues r = [] := by
  unfold validateGetBoardLists at h
  cases hi : getBoardListsIssues r with
  | nil => rfl
  | cons i rest =>
    rw [hi] at h
    simp at h

/-- `getBoardListsSchema.parse` throws whenever any issue was collected. -/
theorem getBoardLists_error_of_issues_ne {r : RawGetBoardLists}
    (h : getBoardListsIssues r ≠ []) : ∃ err, validateGetBoardLists r = .error err := by
  unfold validateGetBoardLists
  cases hi : getBoardListsIssues r with
  | nil => exact absurd hi h
  | cons i rest => exact ⟨⟨i :: rest⟩, rfl⟩

/-- C10: every Trello entity-identifier field accepted by the validators
(`boardId`, `cardId`, `idList`, and each element of `idMembers`/`idLabels`)
matches `/^[a-f0-9]{24}$/i`; each `validate*` function throws a `ZodError`
exactly when its input collects issues against its schema, so a present
malformed identifier is rejected (error returned, no API-client call); and
`formatValidationError` yields a string beginning with `Validation error: `
listing each issue as `path: message` joined by `, `. -/
theorem C10_id_validation_and_error_format (rCC : RawCreateCard)
    (rUC : RawUpdateCard) (rMC : RawMoveCard) (rGC : RawGetCard)
    (rDC : RawDeleteCard) (rGB : RawGetBoard) (rGL : RawGetBoardLists)
    (e : ZodError) :
    (∀ x, validateCreateCard rCC = .ok x →
      (∀ s, rCC.idList = some s → isTrelloId s = true) ∧
      (∀ l, rCC.idMembers = some l → ∀ s ∈ l, isTrelloId s = true) ∧
      (∀ l, rCC.idLabels = some l → ∀ s ∈ l, isTrelloId s = true)) ∧
    ((∃ s, rCC.idList = some s ∧ isTrelloId s = false) →
      ∃ err, validateCreateCard rCC = .error err) ∧
    ((∃ l s, rCC.idMembers = some l ∧ s ∈ l ∧ isTrelloId s = false) →
      ∃ err, validateCreateCard rCC = .error err) ∧
    (∀ x, validateUpdateCard rUC = .ok x →
      (∀ s, rUC.cardId = some s → isTrelloId s = true) ∧
      (∀ s, rUC.idList = some s → isTrelloId s = true) ∧
      (∀ l, rUC.idMembers = some l → ∀ s ∈ l, isTrelloId s = true) ∧
      (∀ l, rUC.idLabels = some l → ∀ s ∈ l, isTrelloId s = true)) ∧
    ((∃ s, rUC.cardId = some s ∧ isTrelloId s = false) →
      ∃ err, validateUpdateCard rUC = .error err) ∧
    (∀ x, validateMoveCard rMC = .ok x →
      (∀ s, rMC.cardId = some s → isTrelloId s = true) ∧
      (∀ s, rMC.idList = some s → isTrelloId s = true)) ∧
    ((∃ s, rMC.cardId = some s ∧ isTrelloId s = false) →
      ∃ err, validateMoveCard rMC = .error err) ∧
    (∀ x, validateGetCard rGC = .ok x →
      ∀ s, rGC.cardId = some s → isTrelloId s = true) ∧
    ((∃ s, rGC.cardId = some s ∧ isTrelloId s = false) →
      ∃ err, validateGetCard rGC = .error err) ∧
    (∀ x, validateDeleteCard rDC = .ok x →
      ∀ s, rDC.cardId = some s → isTrelloId s = true) ∧
    ((∃ s, rDC.cardId = some s ∧ isTrelloId s = false) →
      ∃ err, validateDeleteCard rDC = .error err) ∧
    (∀ x, validateGetBoard rGB = .ok x →
      ∀ s, rGB.boardId = some s → isTrelloId s = true) ∧
    ((∃ s, rGB.boardId = some s ∧ isTrelloId s = false) →
      ∃ err, validateGetBoard rGB = .error err) ∧
    (∀ x, validateGetBoardLists rGL = .ok x →
      ∀ s, rGL.boardId = some s → isTrelloId s = true) ∧
    ((∃ s, rGL.boardId = some s ∧ isTrelloId s = false) →
      ∃ err, validateGetBoardLists rGL = .error err) ∧
    (formatValidationError e = formatValidationErrorSpec e ∧
      "Validation error: ".data <+: (formatValidationError e).data) := by
  refine ⟨?_, ?_, ?_, ?_, ?_, ?_, ?_, ?_, ?_, ?_, ?_, ?_, ?_, ?_, ?_, ?_⟩
  · intro x hok
    have hnil := createCard_issues_nil_of_ok hok
    rw [createCardIssues] at hnil
    simp only [List.append_eq_nil, and_assoc] at hnil
    obtain ⟨-, -, -, hidList, -, -, hmem, hlab⟩ := hnil
    exact ⟨fun s hv => trelloId_of_issues_nil hidList hv,
      fun l hv => trelloIdArray_of_issues_nil hmem hv,
      fun l hv => trelloIdArray_of_issues_nil hlab hv⟩
  · rintro ⟨s, hv, hbad⟩
    apply createCard_error_of_issues_ne
    intro hcontra
    rw [createCardIssues] at hcontra
    simp only [List.append_eq_nil, and_assoc] at hcontra
    exact trelloIdIssues_ne_nil hbad (hv ▸ hcontra.2.2.2.1)
  · rintro ⟨l, s, hv, hs, hbad⟩
    apply createCard_error_of_issues_ne
    intro hcontra
    rw [createCardIssues] at hcontra
    simp only [List.append_eq_nil, and_assoc] at hcontra
    exact trelloIdArray_issues_ne_nil hs hbad (hv ▸ hcontra.2.2.2.2.2.2.1)
  · intro x hok
    have hnil := updateCard_issues_nil_of_ok hok
    rw [updateCardIssues] at hnil
    simp only [List.append_eq_nil, and_assoc] at hnil
    obtain ⟨-, hcard, -, -, -, hidList, -, hmem, hlab⟩ := hnil
    exact ⟨fun s hv => trelloId_of_issues_nil hcard hv,
      fun s hv => trelloIdOpt_of_issues_nil hidList hv,
      fun l hv => trelloIdArray_of_issues_nil hmem hv,
      fun l hv => trelloIdArray_of_issues_nil hlab hv⟩
  · rintro ⟨s, hv, hbad⟩
    apply updateCard_error_of_issues_ne
    intro hcontra
    rw [updateCardIssues] at hcontra
    simp only [List.append_eq_nil, and_assoc] at hcontra
    exact trelloIdIssues_ne_nil hbad (hv ▸ hcontra.2.1)
  · intro x hok
    have hnil := moveCard_issues_nil_of_ok hok
    rw [moveCardIssues] at hnil
    simp only [List.append_eq_nil, and_assoc] at hnil
    obtain ⟨-, hcard, hidList, -⟩ := hnil
    exact ⟨fun s hv => trelloId_of_issues_nil hcard hv,
      fun s hv => trelloId_of_issues_nil hidList hv⟩
  · rintro ⟨s, hv, hbad⟩
    apply moveCard_error_of_issues_ne
    intro hcontra
    rw [moveCardIssues] at hcontra
    simp only [List.append_eq_nil, and_assoc] at hcontra
    exact trelloIdIssues_ne_nil hbad (hv ▸ hcontra.2.1)
  · intro x hok
    have hnil := getCard_issues_nil_of_ok hok
    rw [getCardIssues] at hnil
    simp only [List.append_eq_nil, and_assoc] at hnil
    exact fun s hv => trelloId_of_issues_nil hnil.2 hv
  · rintro ⟨s, hv, hbad⟩
    apply getCard_error_of_issues_ne
    intro hcontra
    rw [getCardIssues] at hcontra
    simp only [List.append_eq_nil, and_assoc] at hcontra
    exact trelloIdIssues_ne_nil hbad (hv ▸ hcontra.2)
  · intro x hok
    have hnil := deleteCard_issues_nil_of_ok hok
    rw [deleteCardIssues] at hnil
    simp only [List.append_eq_nil, and_assoc] at hnil
    exact fun s hv => trelloId_of_issues_nil hnil.2 hv
  · rintro ⟨s, hv, hbad⟩
    apply deleteCard_error_of_issues_ne
    intro hcontra
    rw [deleteCardIssues] at hcontra
    simp only [List.append_eq_nil, and_assoc] at hcontra
    exact trelloIdIssues_ne_nil hbad (hv ▸ hcontra.2)
  · intro x hok
    have hnil := getBoard_issues_nil_of_ok hok
    rw [getBoardIssues] at hnil
    simp only [List.append_eq_nil, and_assoc] at hnil
    exact fun s hv => trelloId_of_issues_nil hnil.2 hv
  · rintro ⟨s, hv, hbad⟩
    apply getBoard_error_of_issues_ne
    intro hcontra
    rw [getBoardIssues] at hcontra
    simp only [List.append_eq_nil, and_assoc] at hcontra
    exact trelloIdIssues_ne_nil hbad (hv ▸ hcontra.2)
  · intro x hok
    have hnil := getBoardLists_issues_nil_of_ok hok
    rw [getBoardListsIssues] at hnil
    simp only [List.append_eq_nil, and_assoc] at hnil
    exact fun s hv => trelloId_of_issues_nil hnil.2.1 hv
  · rintro ⟨s, hv, hbad⟩
    apply getBoardLists_error_of_issues_ne
    intro hcontra
    rw [getBoardListsIssues] at hcontra
    simp only [List.append_eq_nil, and_assoc] at hcontra
    exact trelloIdIssues_ne_nil hbad (hv ▸ hcontra.2.1)
  · refine ⟨rfl, ?_⟩
    unfold formatValidationError
    rw [String.data_append]
    exact List.prefix_append _ _

/-- C10 witness: `validateUpdateCard` rejects the concrete malformed
`cardId: "invalid"` of the cards test, and a concrete one-issue error formats
with the `Validation error: ` prefix. -/
theorem C10_witness :
    (∃ err, validateUpdateCard
      ⟨some "testKey", some "testToken", some "invalid", some "Updated Card",
        none, none, none, none, none, none, none, none⟩ = .error err) ∧
    ("Validation error: ".data <+:
      (formatValidationError ⟨[⟨["cardId"], trelloIdMsg⟩]⟩).data) := by
  have h := C10_id_validation_and_error_format
    ⟨none, none, none, none, none, none, none, none, none⟩
    ⟨some "testKey", some "testToken", some "invalid", some "Updated Card",
      none, none, none, none, none, none, none, none⟩
    ⟨none, none, none, none, none⟩
    ⟨none, none, none, none⟩
    ⟨none, none, none⟩
    ⟨none, none, none, none⟩
    ⟨none, none, none, none⟩
    ⟨[⟨["cardId"], trelloIdMsg⟩]⟩
  exact ⟨h.2.2.2.2.1 ⟨"invalid", rfl, by decide⟩,
    (h.2.2.2.2.2.2.2.2.2.2.2.2.2.2.2).2⟩

theorem C1_witness :
    (runCall defaultRetryConfig (fun _ => AttemptOutcome.httpError (α := Unit) 404 none)).attempts = 1 ∧
    (runCall defaultRetryConfig (fun _ => AttemptOutcome.httpError (α := Unit) 404 none)).sleeps = [] ∧
    (runCall defaultRetryConfig (fun _ => AttemptOutcome.httpError (α := Unit) 404 none)).result =
      .error (classifyStatus 404 none) ∧
    (classifyStatus 404 none).kind = .notFound := by
  have h := C1_no_retry_on_client_errors defaultRetryConfig
    (fun _ => AttemptOutcome.httpError (α := Unit) 404 none) 404 none rfl (by decide)
  exact ⟨h.1, h.2.1, h.2.2.1, h.2.2.2.2.2.2 rfl⟩

end Trello
